import Mathlib

/-!
Verification development for the `bruh` command-line utility
(external-tool orchestrator: `scan`, `commit`, `pr create`).

The Go source shells out to external programs and branches only on
(a) whether an executable is resolvable on the search path,
(b) the exit status of the spawned process, and
(c) the captured combined output.
The shallow embedding below therefore models each external invocation by an
abstract environment record carrying exactly those observables, and translates
each wrapper function of `cmd/scan.go`, `cmd/commit.go` and `cmd/pr.go` into a
pure Lean function of that environment.  Verbosity flags only change the
argument strings handed to the external process and what gets printed; they do
not influence any branch of the Go control flow, so they are not modelled.
-/

namespace Bruh

/-- Result of starting an external process and waiting for it
(`exec.Cmd.CombinedOutput` / `exec.Cmd.Run` in the Go source):
`exited 0` is a nil error, `exited c` with `c ≠ 0` is an `*exec.ExitError`
whose `ExitCode()` is `c`, and `execFailed` is any other error (for example
the executable could not be started because it is not on the search path). -/
inductive ProcResult where
  | exited (code : Nat)
  | execFailed
deriving DecidableEq, Repr

/-- Observable environment of one external tool invocation:
`installed` is the result of the `exec.LookPath` availability probe
(`isToolInstalled` / `isGitleaksInstalled` in `cmd/scan.go`), `res` is the
process result and `output` the captured combined stdout/stderr. -/
structure ToolEnv where
  installed : Bool
  res : ProcResult
  output : String
deriving DecidableEq, Repr

/-- Outcome of one tool wrapper of `cmd/scan.go`.  Each wrapper returns a Go
`error`; the constructors record which branch produced it: `unavailable` and
`clean` are the two nil-error branches, `issuesFound` is the branch printing
"issues detected" and returning a "found issues" error, `executionError` is
the branch returning a "failed to run" error. -/
inductive ScanOutcome where
  | unavailable
  | clean
  | issuesFound
  | executionError
deriving DecidableEq, Repr

/-- Whether a wrapper outcome corresponds to a non-nil Go error
(the wrapper "returns failure", which the callers count in `hasErrors`). -/
def isFailure : ScanOutcome → Bool
  | .issuesFound => true
  | .executionError => true
  | .unavailable => false
  | .clean => false

/-- The external analysis tools invoked by `cmd/scan.go`, one per wrapper
function. -/
inductive Tool where
  | gitleaks
  | goVet
  | staticcheck
  | gosec
  | govulncheck
  | eslint
  | npmAudit
  | bandit
  | pylint
  | safety
  | spotbugs
  | pmd
  | cargoClippy
  | cargoAudit
deriving DecidableEq, Repr

/-- Translation of `runGitleaksScan` (scan.go:210-249): missing tool is
reported unavailable (nil error); exit 0 is clean; `*exec.ExitError` with
code 1 is "found potential secrets"; any other error is "failed to run". -/
def runGitleaksScan (e : ToolEnv) : ScanOutcome :=
  if !e.installed then .unavailable
  else
    match e.res with
    | .exited 0 => .clean
    | .exited c => if c == 1 then .issuesFound else .executionError
    | .execFailed => .executionError

/-- Translation of `runGosecScan` (scan.go:256-294); same policy as gitleaks
with issues exit code 1. -/
def runGosecScan (e : ToolEnv) : ScanOutcome :=
  if !e.installed then .unavailable
  else
    match e.res with
    | .exited 0 => .clean
    | .exited c => if c == 1 then .issuesFound else .executionError
    | .execFailed => .executionError

/-- Translation of `runStaticcheckScan` (scan.go:296-337): issues exit code 1;
additionally, on a nil error (exit 0) a non-empty combined output is also
reported as "staticcheck found issues" (the `len(output) > 0` branch). -/
def runStaticcheckScan (e : ToolEnv) : ScanOutcome :=
  if !e.installed then .unavailable
  else
    match e.res with
    | .exited 0 => if e.output.length > 0 then .issuesFound else .clean
    | .exited c => if c == 1 then .issuesFound else .executionError
    | .execFailed => .executionError

/-- Translation of `runGoVetScan` (scan.go:339-362).  Unlike every other
wrapper it performs no availability probe, and every non-nil error — any
non-zero exit code as well as a failure to start the `go` executable — takes
the single `go vet found issues` branch. -/
def runGoVetScan (e : ToolEnv) : ScanOutcome :=
  match e.res with
  | .exited 0 => .clean
  | .exited _ => .issuesFound
  | .execFailed => .issuesFound

/-- Translation of `runGovulncheckScan` (scan.go:364-399): issues exit
code 3. -/
def runGovulncheckScan (e : ToolEnv) : ScanOutcome :=
  if !e.installed then .unavailable
  else
    match e.res with
    | .exited 0 => .clean
    | .exited c => if c == 3 then .issuesFound else .executionError
    | .execFailed => .executionError

/-- Translation of `runESLintScan` (scan.go:542-580): issues exit code 1. -/
def runESLintScan (e : ToolEnv) : ScanOutcome :=
  if !e.installed then .unavailable
  else
    match e.res with
    | .exited 0 => .clean
    | .exited c => if c == 1 then .issuesFound else .executionError
    | .execFailed => .executionError

/-- Translation of `runNpmAuditScan` (scan.go:582-619): issues exit code 1. -/
def runNpmAuditScan (e : ToolEnv) : ScanOutcome :=
  if !e.installed then .unavailable
  else
    match e.res with
    | .exited 0 => .clean
    | .exited c => if c == 1 then .issuesFound else .executionError
    | .execFailed => .executionError

/-- Translation of `runBanditScan` (scan.go:623-661): issues exit code 1. -/
def runBanditScan (e : ToolEnv) : ScanOutcome :=
  if !e.installed then .unavailable
  else
    match e.res with
    | .exited 0 => .clean
    | .exited c => if c == 1 then .issuesFound else .executionError
    | .execFailed => .executionError

/-- Translation of `runPylintScan` (scan.go:663-702): any `*exec.ExitError`
with `ExitCode() <= 32` is "pylint found issues" (the source comment documents
exit codes 1-32 as the issues range). -/
def runPylintScan (e : ToolEnv) : ScanOutcome :=
  if !e.installed then .unavailable
  else
    match e.res with
    | .exited 0 => .clean
    | .exited c => if c ≤ 32 then .issuesFound else .executionError
    | .execFailed => .executionError

/-- Translation of `runSafetyScan` (scan.go:704-742): issues exit code 64. -/
def runSafetyScan (e : ToolEnv) : ScanOutcome :=
  if !e.installed then .unavailable
  else
    match e.res with
    | .exited 0 => .clean
    | .exited c => if c == 64 then .issuesFound else .executionError
    | .execFailed => .executionError

/-- Translation of `runSpotBugsScan` (scan.go:746-781): issues exit code 1. -/
def runSpotBugsScan (e : ToolEnv) : ScanOutcome :=
  if !e.installed then .unavailable
  else
    match e.res with
    | .exited 0 => .clean
    | .exited c => if c == 1 then .issuesFound else .executionError
    | .execFailed => .executionError

/-- Translation of `runPMDScan` (scan.go:783-818): issues exit code 4. -/
def runPMDScan (e : ToolEnv) : ScanOutcome :=
  if !e.installed then .unavailable
  else
    match e.res with
    | .exited 0 => .clean
    | .exited c => if c == 4 then .issuesFound else .executionError
    | .execFailed => .executionError

/-- Translation of `runCargoClippyScan` (scan.go:822-856): issues exit
code 101. -/
def runCargoClippyScan (e : ToolEnv) : ScanOutcome :=
  if !e.installed then .unavailable
  else
    match e.res with
    | .exited 0 => .clean
    | .exited c => if c == 101 then .issuesFound else .executionError
    | .execFailed => .executionError

/-- Translation of `runCargoAuditScan` (scan.go:858-893): issues exit
code 1 (availability is probed for `cargo-audit`). -/
def runCargoAuditScan (e : ToolEnv) : ScanOutcome :=
  if !e.installed then .unavailable
  else
    match e.res with
    | .exited 0 => .clean
    | .exited c => if c == 1 then .issuesFound else .executionError
    | .execFailed => .executionError

/-- Dispatch from a tool to its wrapper function. -/
def runTool : Tool → ToolEnv → ScanOutcome
  | .gitleaks, e => runGitleaksScan e
  | .goVet, e => runGoVetScan e
  | .staticcheck, e => runStaticcheckScan e
  | .gosec, e => runGosecScan e
  | .govulncheck, e => runGovulncheckScan e
  | .eslint, e => runESLintScan e
  | .npmAudit, e => runNpmAuditScan e
  | .bandit, e => runBanditScan e
  | .pylint, e => runPylintScan e
  | .safety, e => runSafetyScan e
  | .spotbugs, e => runSpotBugsScan e
  | .pmd, e => runPMDScan e
  | .cargoClippy, e => runCargoClippyScan e
  | .cargoAudit, e => runCargoAuditScan e

/-- The wrappers that probe tool availability before invoking the tool —
every wrapper of `cmd/scan.go` except `runGoVetScan`. -/
def checkedTools : List Tool :=
  [.gitleaks, .staticcheck, .gosec, .govulncheck, .eslint, .npmAudit,
   .bandit, .pylint, .safety, .spotbugs, .pmd, .cargoClippy, .cargoAudit]

/-- Documented "issues" exit codes of each tool descriptor, read off the
success policy of each wrapper (the spec's Tool Descriptor success-policy
field): code 1 for most tools, 3 for govulncheck, 1-32 for pylint, 64 for
safety, 4 for pmd, 101 for cargo clippy. -/
def documentedIssuesCode : Tool → Nat → Bool
  | .govulncheck, c => c == 3
  | .pylint, c => decide (1 ≤ c ∧ c ≤ 32)
  | .safety, c => c == 64
  | .pmd, c => c == 4
  | .cargoClippy, c => c == 101
  | _, c => c == 1

/-- A single executed tool run: which wrapper ran and its outcome. -/
abbrev ScanRun := Tool × ScanOutcome

/-- Scan environment: for each tool, the observables of its (potential)
invocation. -/
abbrev ScanEnv := Tool → ToolEnv

/-- One `if err := runXxxScan(...); err != nil { hasErrors = true }` step of
the per-language runners: execute the wrapper, append the run to the trace and
fold its failure bit into the accumulator. -/
def runStep (env : ScanEnv) (acc : List ScanRun × Bool) (t : Tool) :
    List ScanRun × Bool :=
  let o := runTool t (env t)
  (acc.1 ++ [(t, o)], acc.2 || isFailure o)

/-- Translation of `runGoScans` (scan.go:408-441): under `static` run go vet
then staticcheck, under `security` run gosec, under `vulns` run govulncheck;
the boolean is the `hasErrors` flag (non-nil return iff it is set). -/
def runGoScans (env : ScanEnv) (security static vulns : Bool) :
    List ScanRun × Bool :=
  let a0 : List ScanRun × Bool := ([], false)
  let a1 := if static then runStep env (runStep env a0 .goVet) .staticcheck else a0
  let a2 := if security then runStep env a1 .gosec else a1
  if vulns then runStep env a2 .govulncheck else a2

/-- Translation of `runJavaScriptScans` (scan.go:443-464): under `static` run
eslint, under `vulns` run npm audit (the `security` flag selects nothing). -/
def runJavaScriptScans (env : ScanEnv) (security static vulns : Bool) :
    List ScanRun × Bool :=
  let a0 : List ScanRun × Bool := ([], false)
  let a1 := if static then runStep env a0 .eslint else a0
  if vulns then runStep env a1 .npmAudit else a1

/-- Translation of `runPythonScans` (scan.go:466-494): under `security` run
bandit, under `static` run pylint, under `vulns` run safety. -/
def runPythonScans (env : ScanEnv) (security static vulns : Bool) :
    List ScanRun × Bool :=
  let a0 : List ScanRun × Bool := ([], false)
  let a1 := if security then runStep env a0 .bandit else a0
  let a2 := if static then runStep env a1 .pylint else a1
  if vulns then runStep env a2 .safety else a2

/-- Translation of `runJavaScans` (scan.go:496-515): under `static` run
spotbugs then pmd (the `security` and `vulns` flags select nothing). -/
def runJavaScans (env : ScanEnv) (security static vulns : Bool) :
    List ScanRun × Bool :=
  let a0 : List ScanRun × Bool := ([], false)
  if static then runStep env (runStep env a0 .spotbugs) .pmd else a0

/-- Translation of `runRustScans` (scan.go:517-538): under `static` run cargo
clippy, under `vulns` run cargo audit. -/
def runRustScans (env : ScanEnv) (security static vulns : Bool) :
    List ScanRun × Bool :=
  let a0 : List ScanRun × Bool := ([], false)
  let a1 := if static then runStep env a0 .cargoClippy else a0
  if vulns then runStep env a1 .cargoAudit else a1

/-- The `switch lang` dispatch of the language loop in `runMultiLanguageScan`
(scan.go:109-132); a string matching no case runs nothing. -/
def runLangScans (env : ScanEnv) (security static vulns : Bool)
    (lang : String) : List ScanRun × Bool :=
  if lang = "go" then runGoScans env security static vulns
  else if lang = "javascript" || lang = "typescript" then
    runJavaScriptScans env security static vulns
  else if lang = "python" then runPythonScans env security static vulns
  else if lang = "java" then runJavaScans env security static vulns
  else if lang = "rust" then runRustScans env security static vulns
  else ([], false)

/-- The `for _, lang := range languages` loop of `runMultiLanguageScan`:
every language is visited and each per-language error folds into `hasErrors`;
the loop never exits early. -/
def runLangLoop (env : ScanEnv) (security static vulns : Bool) :
    List ScanRun × Bool → List String → List ScanRun × Bool
  | acc, [] => acc
  | acc, lang :: rest =>
    let r := runLangScans env security static vulns lang
    runLangLoop env security static vulns (acc.1 ++ r.1, acc.2 || r.2) rest

/-- The language-set resolution at scan.go:82-87: a non-empty forced language
is used as the singleton language list, otherwise the result of
`detectLanguages` is used. -/
def effectiveLanguages (forceLanguage : String) (detected : List String) :
    List String :=
  if forceLanguage ≠ "" then [forceLanguage] else detected

/-- How `runMultiLanguageScan` returned: the "no scan types selected" early
return, the "no supported languages detected" early return (both nil errors),
or the final branch with (`failure`) or without (`success`) the aggregate
`one or more scans detected issues` error. -/
inductive ScanExit where
  | noScanTypes
  | nothingDetected
  | success
  | failure
deriving DecidableEq, Repr

/-- Whether a scan exit is a nil return of `runMultiLanguageScan` (every exit
except the aggregate failure). -/
def scanSucceeds : ScanExit → Bool
  | .failure => false
  | _ => true

/-- Translation of `runMultiLanguageScan` (scan.go:76-140).  `detected` is
the answer `detectLanguages()` would give for the working directory; the
returned list is the trace of executed tool runs in order. -/
def runMultiLanguageScan (env : ScanEnv)
    (secrets security static vulns : Bool) (forceLanguage : String)
    (detected : List String) : List ScanRun × ScanExit :=
  if !secrets && !security && !static && !vulns then ([], .noScanTypes)
  else
    let languages := effectiveLanguages forceLanguage detected
    if languages.isEmpty then ([], .nothingDetected)
    else
      let a0 : List ScanRun × Bool := ([], false)
      let a1 := if secrets then runStep env a0 .gitleaks else a0
      let a2 := runLangLoop env security static vulns a1 languages
      (a2.1, if a2.2 then .failure else .success)

/-- The tools the spec says one language's scan must run, given the category
flags (spec 4.3: "each ecosystem's static/security/vulnerability tool subset
per the configuration flags"). -/
def plannedLangTools (security static vulns : Bool) (lang : String) :
    List Tool :=
  if lang = "go" then
    (if static then [.goVet, .staticcheck] else [])
      ++ (if security then [.gosec] else [])
      ++ (if vulns then [.govulncheck] else [])
  else if lang = "javascript" || lang = "typescript" then
    (if static then [.eslint] else []) ++ (if vulns then [.npmAudit] else [])
  else if lang = "python" then
    (if security then [.bandit] else []) ++ (if static then [.pylint] else [])
      ++ (if vulns then [.safety] else [])
  else if lang = "java" then
    (if static then [.spotbugs, .pmd] else [])
  else if lang = "rust" then
    (if static then [.cargoClippy] else [])
      ++ (if vulns then [.cargoAudit] else [])
  else []

/-- The full tool schedule the spec prescribes for one scan invocation:
the secret scanner first if enabled, then every language's enabled tools in
language order (spec 4.3). -/
def plannedTools (secrets security static vulns : Bool)
    (languages : List String) : List Tool :=
  (if secrets then [Tool.gitleaks] else [])
    ++ languages.flatMap (plannedLangTools security static vulns)

/-- Observables of the working directory consulted by `detectLanguages`
(scan.go:142-175): one field per `fileExists` marker probe and per
`hasFilesWithExtension` extension-group walk. -/
structure DetectEnv where
  goMod : Bool
  goFiles : Bool
  packageJson : Bool
  jsFamilyFiles : Bool
  tsFiles : Bool
  requirementsTxt : Bool
  pyprojectToml : Bool
  setupPy : Bool
  pyFiles : Bool
  pomXml : Bool
  buildGradle : Bool
  javaFiles : Bool
  cargoToml : Bool
  rsFiles : Bool
deriving DecidableEq, Repr

/-- Translation of `detectLanguages` (scan.go:142-175): append "go",
"typescript" or "javascript", "python", "java", "rust" in this fixed order as
each group's marker file or extension walk hits; the JavaScript ecosystem
reports "typescript" exactly when a `.ts` or `.tsx` file is found. -/
def detectLanguages (env : DetectEnv) : List String :=
  (if env.goMod || env.goFiles then ["go"] else [])
    ++ (if env.packageJson || env.jsFamilyFiles then
          (if env.tsFiles then ["typescript"] else ["javascript"])
        else [])
    ++ (if env.requirementsTxt || env.pyprojectToml || env.setupPy
          || env.pyFiles then ["python"] else [])
    ++ (if env.pomXml || env.buildGradle || env.javaFiles then ["java"]
        else [])
    ++ (if env.cargoToml || env.rsFiles then ["rust"] else [])

/-- Drop leading whitespace characters from a character list. -/
def dropWhitespace : List Char → List Char
  | [] => []
  | c :: cs => if c.isWhitespace then dropWhitespace cs else c :: cs

/-- Trim whitespace from both ends of a character list. -/
def trimChars (cs : List Char) : List Char :=
  (dropWhitespace (dropWhitespace cs).reverse).reverse

/-- Model of Go's `strings.TrimSpace`: remove leading and trailing whitespace.
Defined by structural recursion over the character list so that it evaluates
inside the kernel (Go trims the full Unicode space class; the commands only
ever meet ASCII space, tab, CR and LF, which `Char.isWhitespace` covers). -/
def strTrim (s : String) : String := ⟨trimChars s.data⟩

/-- Helper for `strContains`: does `sub` occur as a contiguous run in the
list? -/
def containsAux (sub : List Char) : List Char → Bool
  | [] => sub.isEmpty
  | c :: cs => sub.isPrefixOf (c :: cs) || containsAux sub cs

/-- Model of Go's `strings.Contains s sub`. -/
def strContains (s sub : String) : Bool := containsAux sub.data s.data

/-- Helper for `splitLines`: split at every newline, `cur` holding the
reversed current segment. -/
def splitLinesAux (cur : List Char) : List Char → List (List Char)
  | [] => [cur.reverse]
  | c :: cs =>
    if c = '\n' then cur.reverse :: splitLinesAux [] cs
    else splitLinesAux (c :: cur) cs

/-- Model of Go's `strings.Split s "\n"`: the newline-separated segments of
`s` (`splitLines "" = [""]`, exactly as in Go). -/
def splitLines (s : String) : List String :=
  (splitLinesAux [] s.data).map (fun l => ⟨l⟩)

/-- Observables of one pass of the pre-commit cleanup loop of
`runPreCommitCleanup` (commit.go:89-125), indexed by the attempt number:
whether `pre-commit run --all-files` exits 0, whether the `claude` fix
invocation succeeds, and whether `git add .` succeeds. -/
structure CleanupEnv where
  preCommitPasses : Nat → Bool
  fixSucceeds : Nat → Bool
  stageSucceeds : Nat → Bool

/-- How `runPreCommitCleanup` returned: pre-commit eventually passed (nil),
the `claude` fix step failed, `git add .` failed, or the loop ran out of
attempts and returned the `failed to fix pre-commit issues after 5 attempts`
error. -/
inductive CleanupResult where
  | passed
  | fixFailed
  | stageFailed
  | exhausted
deriving DecidableEq, Repr

/-- The `for attempt := 1; attempt <= maxAttempts; attempt++` loop of
`runPreCommitCleanup`, with `remaining = maxAttempts + 1 - attempt` the number
of loop iterations still permitted (so `remaining = 0` is the loop exit that
falls through to the terminal error).  The returned list records the attempt
numbers on which `pre-commit` was actually executed. -/
def preCommitLoop (env : CleanupEnv) (attempt : Nat) :
    Nat → List Nat × CleanupResult
  | 0 => ([], .exhausted)
  | remaining + 1 =>
    if env.preCommitPasses attempt then ([attempt], .passed)
    else if !env.fixSucceeds attempt then ([attempt], .fixFailed)
    else if !env.stageSucceeds attempt then ([attempt], .stageFailed)
    else
      let r := preCommitLoop env (attempt + 1) remaining
      (attempt :: r.1, r.2)

/-- Translation of `runPreCommitCleanup` (commit.go:89-125):
`maxAttempts = 5`, attempts numbered from 1. -/
def runPreCommitCleanup (env : CleanupEnv) : List Nat × CleanupResult :=
  preCommitLoop env 1 5

/-- Translation of `generateCommitMessage` (commit.go:144-181).  The three
`Option String` arguments are the stdout of `git status --porcelain`,
`git diff --cached --name-status` and the `claude` invocation (`none` means
the command returned an error).  The AI stdout is trimmed and an empty trimmed
message is rejected. -/
def generateCommitMessage (statusOut diffOut claudeOut : Option String) :
    Except String String :=
  match statusOut with
  | none => .error "failed to get git status"
  | some _ =>
    match diffOut with
    | none => .error "failed to get git diff"
    | some _ =>
      match claudeOut with
      | none => .error "failed to generate commit message with Claude"
      | some out =>
        let message := strTrim out
        if message = "" then .error "Claude generated empty commit message"
        else .ok message

/-- The external processes the `pr create` command can spawn, in source
order: the two git precondition probes (`validateGitRepo`,
`getCurrentBranch`), the two GitHub CLI probes (`checkGHCLI`), and the four
commands of `generatePRDescription` (`gh repo view`, the two diffs and the
log are collapsed to their three fallible git commands plus the `claude`
call; `gh repo view` cannot fail the command — on error the base branch falls
back to "main"). -/
inductive PrStep where
  | gitRevParse
  | gitBranchShowCurrent
  | ghVersion
  | ghAuthStatus
  | ghRepoView
  | gitDiffNameStatus
  | gitLogOneline
  | gitDiffStat
  | claudePrompt
deriving DecidableEq, Repr

/-- Observables of the external processes consulted by `pr create`:
`isGitRepo` is the success of `git rev-parse --git-dir`, `branchOut` the
stdout of `git branch --show-current` (`none` if it failed), `ghVersionOk`
and `ghAuthOk` the two `checkGHCLI` probes, and the remaining fields the
stdout of the commands run by `generatePRDescription`. -/
structure PrEnv where
  isGitRepo : Bool
  branchOut : Option String
  ghVersionOk : Bool
  ghAuthOk : Bool
  diffOut : Option String
  logOut : Option String
  statOut : Option String
  claudeOut : Option String

/-- Translation of `generatePRDescription` (pr.go:101-168), with the trace of
processes it spawns.  The only processing of the `claude` stdout is
`strings.TrimSpace`; there is no empty-response check. -/
def generatePRDescription (env : PrEnv) :
    List PrStep × Except String String :=
  match env.diffOut with
  | none => ([.ghRepoView, .gitDiffNameStatus], .error "failed to get diff")
  | some _ =>
    match env.logOut with
    | none => ([.ghRepoView, .gitDiffNameStatus, .gitLogOneline],
               .error "failed to get commit log")
    | some _ =>
      match env.statOut with
      | none => ([.ghRepoView, .gitDiffNameStatus, .gitLogOneline,
                  .gitDiffStat], .error "failed to get detailed diff")
      | some _ =>
        match env.claudeOut with
        | none => ([.ghRepoView, .gitDiffNameStatus, .gitLogOneline,
                    .gitDiffStat, .claudePrompt],
                   .error "failed to create PR with Claude")
        | some out => ([.ghRepoView, .gitDiffNameStatus, .gitLogOneline,
                        .gitDiffStat, .claudePrompt], .ok (strTrim out))

/-- Does a line contain both "github.com" and "/pull/"
(the match condition of `createPR`, pr.go:174-177)? -/
def prLineMatch (line : String) : Bool :=
  strContains line "github.com" && strContains line "/pull/"

/-- Translation of `createPR` (pr.go:170-182): return the first line of the
description containing both "github.com" and "/pull/", trimmed; otherwise
return the whole description.  The Go function's error result is always
nil. -/
def createPR (description : String) : Except String String :=
  match (splitLines description).find? prLineMatch with
  | some line => .ok (strTrim line)
  | none => .ok description

/-- Translation of the `pr create` command body (`prCmd.RunE`, pr.go:19-68),
with the trace of external processes spawned, in order. -/
def prCreate (env : PrEnv) : List PrStep × Except String String :=
  if !env.isGitRepo then ([.gitRevParse], .error "not in a git repository")
  else
    match env.branchOut with
    | none => ([.gitRevParse, .gitBranchShowCurrent],
               .error "failed to get current branch")
    | some bout =>
      let currentBranch := strTrim bout
      if currentBranch = "main" || currentBranch = "master" then
        ([.gitRevParse, .gitBranchShowCurrent],
         .error ("cannot create PR from " ++ currentBranch ++ " branch"))
      else if !env.ghVersionOk then
        ([.gitRevParse, .gitBranchShowCurrent, .ghVersion],
         .error "GitHub CLI (gh) is not installed or not authenticated")
      else if !env.ghAuthOk then
        ([.gitRevParse, .gitBranchShowCurrent, .ghVersion, .ghAuthStatus],
         .error "GitHub CLI (gh) is not installed or not authenticated")
      else
        let pre : List PrStep :=
          [.gitRevParse, .gitBranchShowCurrent, .ghVersion, .ghAuthStatus]
        let gen := generatePRDescription env
        match gen.2 with
        | .error e => (pre ++ gen.1, .error ("failed to generate PR description: " ++ e))
        | .ok desc =>
          match createPR desc with
          | .ok url => (pre ++ gen.1, .ok url)
          | .error e => (pre ++ gen.1, .error ("failed to create PR: " ++ e))

/-- Concrete scan environment for witnesses: every tool resolvable, every
process exiting 0 with empty output. -/
def envAllClean : ScanEnv := fun _ => ⟨true, ProcResult.exited 0, ""⟩

/-- Concrete cleanup environment for witnesses: pre-commit fails on every
attempt while the fix and staging steps always succeed. -/
def cleanupAllFailEnv : CleanupEnv :=
  ⟨fun _ => false, fun _ => true, fun _ => true⟩

/-- Concrete `pr create` environment in which the AI responds with pure
whitespace. -/
def prEnvBlankClaude : PrEnv :=
  ⟨true, some "feature", true, true, some "", some "", some "", some "  \n "⟩

/-- Concrete `pr create` environment in which the AI responds with a padded
non-empty message. -/
def prEnvPadded : PrEnv :=
  ⟨true, some "feature", true, true, some "", some "", some "", some " fix: x "⟩

/-- Concrete `pr create` environment sitting on the main branch. -/
def prEnvOnMain : PrEnv :=
  ⟨true, some "main", true, true, some "", some "", some "", some ""⟩

/-- A non-empty string has positive character length. -/
theorem length_pos_of_ne_empty (s : String) (h : s ≠ "") : 0 < s.length := by
  obtain ⟨l⟩ := s
  cases l with
  | nil => exact absurd rfl h
  | cons c cs => simp [String.length]

/-- C1 (amended): every tool wrapper that performs an availability probe —
all of them except `runGoVetScan` — reports a missing executable as
unavailable and returns success; the go vet wrapper performs no probe, and a
failure to start the `go` executable takes its issues branch and returns
failure. -/
theorem unavailable_tool_never_fails :
    (∀ t ∈ checkedTools, ∀ e : ToolEnv, e.installed = false →
       runTool t e = ScanOutcome.unavailable ∧ isFailure (runTool t e) = false)
    ∧ (∀ out : String,
        runTool Tool.goVet ⟨false, ProcResult.execFailed, out⟩ = ScanOutcome.issuesFound ∧
        isFailure (runTool Tool.goVet ⟨false, ProcResult.execFailed, out⟩) = true) := by
  constructor
  · intro t ht e hinst
    fin_cases ht <;>
      simp [runTool, runGitleaksScan, runStaticcheckScan, runGosecScan,
        runGovulncheckScan, runESLintScan, runNpmAuditScan, runBanditScan,
        runPylintScan, runSafetyScan, runSpotBugsScan, runPMDScan,
        runCargoClippyScan, runCargoAuditScan, isFailure, hinst]
  · intro out
    exact ⟨rfl, rfl⟩

/-- C1 (counterexample to the claim as stated): the go vet wrapper, invoked
while the `go` executable is not resolvable (so that starting the process
fails with a non-`ExitError` error), reports issues and returns failure
rather than reporting unavailable and returning success. -/
theorem goVet_missing_executable_counted_as_failure :
    runTool Tool.goVet ⟨false, ProcResult.execFailed, ""⟩ = ScanOutcome.issuesFound ∧
    isFailure (runTool Tool.goVet ⟨false, ProcResult.execFailed, ""⟩) = true :=
  ⟨rfl, rfl⟩

/-- C1 witness: the gitleaks wrapper with an unresolvable executable. -/
theorem unavailable_tool_never_fails_witness :
    runTool Tool.gitleaks ⟨false, ProcResult.exited 0, ""⟩ = ScanOutcome.unavailable ∧
    isFailure (runTool Tool.gitleaks ⟨false, ProcResult.exited 0, ""⟩) = false :=
  unavailable_tool_never_fails.1 Tool.gitleaks (by decide)
    ⟨false, ProcResult.exited 0, ""⟩ rfl

/-- C2 (amended): for every availability-probed wrapper, exit code 0 is
classified Clean — except that the staticcheck wrapper classifies exit code 0
with non-empty output as IssuesFound; a documented issues exit code yields
IssuesFound and any other non-zero exit code yields ExecutionError; the go
vet wrapper classifies every non-zero exit code as IssuesFound; and exactly
the IssuesFound and ExecutionError outcomes make a wrapper return failure. -/
theorem exit_code_classification :
    (∀ t ∈ checkedTools, ∀ (out : String) (c : Nat),
       ((t = Tool.staticcheck → out = "") →
          runTool t ⟨true, ProcResult.exited 0, out⟩ = ScanOutcome.clean)
       ∧ (out ≠ "" →
          runTool Tool.staticcheck ⟨true, ProcResult.exited 0, out⟩ = ScanOutcome.issuesFound)
       ∧ (c ≠ 0 →
          runTool t ⟨true, ProcResult.exited c, out⟩
            = if documentedIssuesCode t c then ScanOutcome.issuesFound
              else ScanOutcome.executionError))
    ∧ (∀ (out : String) (c : Nat), c ≠ 0 →
         runTool Tool.goVet ⟨true, ProcResult.exited c, out⟩ = ScanOutcome.issuesFound)
    ∧ (∀ o : ScanOutcome,
         isFailure o = true ↔ (o = ScanOutcome.issuesFound ∨ o = ScanOutcome.executionError)) := by
  refine ⟨?_, ?_, ?_⟩
  · intro t ht out c
    have hsc2 : out ≠ "" →
        runTool Tool.staticcheck ⟨true, ProcResult.exited 0, out⟩ = ScanOutcome.issuesFound := by
      intro hout
      have hlen := length_pos_of_ne_empty out hout
      simp [runTool, runStaticcheckScan, hlen]
    fin_cases ht <;>
      refine ⟨fun hsc => ?_, hsc2, fun hc => ?_⟩ <;>
      first
      | rfl
      | (rw [hsc rfl]; rfl)
      | (cases c with
         | zero => exact absurd rfl hc
         | succ k =>
           simp only [runTool, runGitleaksScan, runGosecScan, runStaticcheckScan,
             runGovulncheckScan, runESLintScan, runNpmAuditScan, runBanditScan,
             runPylintScan, runSafetyScan, runSpotBugsScan, runPMDScan,
             runCargoClippyScan, runCargoAuditScan, documentedIssuesCode,
             Bool.not_true, Bool.false_eq_true, if_false, decide_eq_true_eq]
           try (split_ifs <;> first | rfl | (exfalso; omega)))
  · intro out c hc
    cases c with
    | zero => exact absurd rfl hc
    | succ k => rfl
  · intro o
    cases o <;> simp [isFailure]

/-- C2 (counterexample to the claim as stated): the staticcheck wrapper at
exit code 0 with non-empty captured output is classified IssuesFound, not
Clean, and returns failure. -/
theorem staticcheck_exit_zero_nonempty_output_fails :
    runTool Tool.staticcheck ⟨true, ProcResult.exited 0, "x"⟩ = ScanOutcome.issuesFound ∧
    isFailure (runTool Tool.staticcheck ⟨true, ProcResult.exited 0, "x"⟩) = true := by
  exact ⟨rfl, rfl⟩

/-- C2 witness: govulncheck at its documented issues exit code 3. -/
theorem exit_code_classification_witness :
    runTool Tool.govulncheck ⟨true, ProcResult.exited 3, ""⟩ = ScanOutcome.issuesFound := by
  have h := (exit_code_classification.1 Tool.govulncheck (by decide) "" 3).2.2 (by decide)
  simpa [documentedIssuesCode] using h

/-- The tools of one aggregation step are the accumulated tools plus the tool
just run. -/
theorem runStep_tools (env : ScanEnv) (acc : List ScanRun × Bool) (t : Tool) :
    (runStep env acc t).1.map Prod.fst = acc.1.map Prod.fst ++ [t] := by
  simp [runStep]

/-- The tools one language dispatch runs are exactly the planned tools of
that language, whatever the tool outcomes are. -/
theorem runLangScans_tools (env : ScanEnv) (security static vulns : Bool)
    (lang : String) :
    (runLangScans env security static vulns lang).1.map Prod.fst
      = plannedLangTools security static vulns lang := by
  unfold runLangScans plannedLangTools
  cases security <;> cases static <;> cases vulns <;> split_ifs <;>
    simp_all [runGoScans, runJavaScriptScans, runPythonScans, runJavaScans,
      runRustScans, runStep]

/-- The tools the language loop runs are the accumulated tools followed by
every language's planned tools, whatever the tool outcomes are. -/
theorem runLangLoop_tools (env : ScanEnv) (security static vulns : Bool)
    (ls : List String) :
    ∀ acc, (runLangLoop env security static vulns acc ls).1.map Prod.fst
      = acc.1.map Prod.fst ++ ls.flatMap (plannedLangTools security static vulns) := by
  induction ls with
  | nil => intro acc; simp [runLangLoop]
  | cons l rest ih =>
    intro acc
    simp [runLangLoop, ih, runLangScans_tools, List.map_append]

/-- One aggregation step preserves the invariant that the error flag is the
disjunction of the trace's failures. -/
theorem runStep_inv (env : ScanEnv) (acc : List ScanRun × Bool) (t : Tool)
    (h : acc.2 = acc.1.any fun r => isFailure r.2) :
    (runStep env acc t).2 = (runStep env acc t).1.any fun r => isFailure r.2 := by
  simp [runStep, h, List.any_append]

/-- Each per-language runner's error flag is the disjunction of its trace's
failures. -/
theorem runLangScans_inv (env : ScanEnv) (security static vulns : Bool)
    (lang : String) :
    (runLangScans env security static vulns lang).2
      = (runLangScans env security static vulns lang).1.any fun r => isFailure r.2 := by
  unfold runLangScans
  cases security <;> cases static <;> cases vulns <;> split_ifs <;>
    simp_all [runGoScans, runJavaScriptScans, runPythonScans, runJavaScans,
      runRustScans, runStep, List.any_append, Bool.or_assoc]

/-- The language loop preserves the invariant that the error flag is the
disjunction of the trace's failures. -/
theorem runLangLoop_inv (env : ScanEnv) (security static vulns : Bool)
    (ls : List String) :
    ∀ acc, acc.2 = (acc.1.any fun r => isFailure r.2) →
      (runLangLoop env security static vulns acc ls).2
        = (runLangLoop env security static vulns acc ls).1.any fun r => isFailure r.2 := by
  induction ls with
  | nil => intro acc h; simpa [runLangLoop] using h
  | cons l rest ih =>
    intro acc h
    apply ih
    simp [List.any_append, h, runLangScans_inv env security static vulns l]

/-- A trace has no failing run exactly when no run in it reported IssuesFound
or ExecutionError. -/
theorem no_failure_iff (l : List ScanRun) :
    ((l.any fun r => isFailure r.2) = false)
      ↔ ∀ r ∈ l, r.2 ≠ ScanOutcome.issuesFound ∧ r.2 ≠ ScanOutcome.executionError := by
  rw [List.any_eq_false]
  constructor
  · intro h r hr
    have hf := h r hr
    cases hout : r.2 <;> simp_all [isFailure]
  · intro h r hr
    have hf := h r hr
    cases hout : r.2 <;> simp_all [isFailure]

/-- C3: for every run configuration and every detected language set, the
aggregator's executed-tool schedule is exactly every enabled tool for every
effective language (so no tool run is skipped on an earlier failure — the
schedule does not depend on any tool's outcome), and the scan command returns
success exactly when no executed run reported IssuesFound or
ExecutionError. -/
theorem scan_runs_all_enabled_tools_and_aggregates :
    ∀ (env : ScanEnv) (secrets security static vulns : Bool)
      (forceLanguage : String) (detected : List String),
      ((secrets || security || static || vulns) = true →
        effectiveLanguages forceLanguage detected ≠ [] →
        (runMultiLanguageScan env secrets security static vulns forceLanguage detected).1.map Prod.fst
          = plannedTools secrets security static vulns
              (effectiveLanguages forceLanguage detected))
      ∧ (scanSucceeds (runMultiLanguageScan env secrets security static vulns forceLanguage detected).2 = true
          ↔ ∀ r ∈ (runMultiLanguageScan env secrets security static vulns forceLanguage detected).1,
              r.2 ≠ ScanOutcome.issuesFound ∧ r.2 ≠ ScanOutcome.executionError) := by
  intro env secrets security static vulns f d
  by_cases hguard : (!secrets && !security && !static && !vulns) = true
  · have hall : secrets = false ∧ security = false ∧ static = false ∧ vulns = false := by
      cases secrets <;> cases security <;> cases static <;> cases vulns <;> simp_all
    constructor
    · intro htypes
      obtain ⟨h1, h2, h3, h4⟩ := hall
      rw [h1, h2, h3, h4] at htypes
      simp at htypes
    · simp [runMultiLanguageScan, hguard, scanSucceeds]
  · have hg : (!secrets && !security && !static && !vulns) = false := by
      revert hguard
      cases (!secrets && !security && !static && !vulns) <;> simp
    by_cases hie : (effectiveLanguages f d).isEmpty = true
    · constructor
      · intro _ hne
        exact absurd (List.isEmpty_iff.mp hie) hne
      · simp [runMultiLanguageScan, hg, hie, scanSucceeds]
    · have hie' : (effectiveLanguages f d).isEmpty = false := by
        revert hie
        cases (effectiveLanguages f d).isEmpty <;> simp
      have hbase :
          (if secrets then runStep env ([], false) Tool.gitleaks else ([], false)).2
            = ((if secrets then runStep env ([], false) Tool.gitleaks else ([], false)).1.any
                fun r => isFailure r.2) := by
        cases secrets <;> simp [runStep]
      constructor
      · intro _ _
        simp only [runMultiLanguageScan, hg, Bool.false_eq_true, if_false, hie']
        rw [runLangLoop_tools]
        unfold plannedTools
        cases secrets <;> simp [runStep]
      · simp only [runMultiLanguageScan, hg, Bool.false_eq_true, if_false, hie']
        have hinv := runLangLoop_inv env security static vulns
          (effectiveLanguages f d)
          (if secrets then runStep env ([], false) Tool.gitleaks else ([], false)) hbase
        cases h2 : (runLangLoop env security static vulns
            (if secrets then runStep env ([], false) Tool.gitleaks else ([], false))
            (effectiveLanguages f d)).2
        · rw [h2] at hinv
          simp only [Bool.false_eq_true, if_false, scanSucceeds, true_iff]
          intro r hmem
          exact (no_failure_iff _).mp hinv.symm r hmem
        · rw [h2] at hinv
          simp only [if_true, scanSucceeds]
          constructor
          · intro hfalse
            exact absurd hfalse (by simp)
          · intro hnone
            exfalso
            have := (no_failure_iff _).mpr hnone
            rw [this] at hinv
            exact Bool.true_eq_false.mp hinv

/-- C3 witness: with every tool clean, the schedule of a full scan over the
go ecosystem is gitleaks followed by the four go tools. -/
theorem scan_runs_all_enabled_tools_witness :
    (runMultiLanguageScan envAllClean true true true true "" ["go"]).1.map Prod.fst
      = plannedTools true true true true (effectiveLanguages "" ["go"]) :=
  (scan_runs_all_enabled_tools_and_aggregates envAllClean true true true true "" ["go"]).1
    (by decide) (by decide)

/-- C5: a non-empty forced language makes the effective language set exactly
that singleton, and the scan result does not depend on what auto-detection
would have returned. -/
theorem forced_language_is_sole_ecosystem :
    ∀ (f : String), f ≠ "" → ∀ (d d' : List String),
      effectiveLanguages f d = [f]
      ∧ ∀ (env : ScanEnv) (secrets security static vulns : Bool),
          runMultiLanguageScan env secrets security static vulns f d
            = runMultiLanguageScan env secrets security static vulns f d' := by
  intro f hf d d'
  have he : ∀ dd : List String, effectiveLanguages f dd = [f] := by
    intro dd
    simp [effectiveLanguages, hf]
  refine ⟨he d, ?_⟩
  intro env secrets security static vulns
  simp only [runMultiLanguageScan, he]

/-- C5 witness: forcing "go" while detection would have said "python". -/
theorem forced_language_witness :
    effectiveLanguages "go" ["python"] = ["go"]
    ∧ runMultiLanguageScan envAllClean true true true true "go" ["python"]
      = runMultiLanguageScan envAllClean true true true true "go" [] := by
  have h := forced_language_is_sole_ecosystem "go" (by decide) ["python"] []
  exact ⟨h.1, h.2 envAllClean true true true true⟩

/-- C8: with no forced language, at least one scan category enabled and an
empty detected set, the scan reports that nothing was detected, runs no tool,
and returns success. -/
theorem empty_detection_exits_cleanly :
    ∀ (env : ScanEnv) (secrets security static vulns : Bool),
      (secrets || security || static || vulns) = true →
      runMultiLanguageScan env secrets security static vulns "" []
        = ([], ScanExit.nothingDetected)
      ∧ scanSucceeds ScanExit.nothingDetected = true := by
  intro env secrets security static vulns htypes
  have hg : (!secrets && !security && !static && !vulns) = false := by
    cases secrets <;> cases security <;> cases static <;> cases vulns <;> simp_all
  refine ⟨?_, rfl⟩
  simp [runMultiLanguageScan, hg, effectiveLanguages]

/-- C8 witness: a fully enabled scan over an empty detected set. -/
theorem empty_detection_witness :
    runMultiLanguageScan envAllClean true true true true "" []
      = ([], ScanExit.nothingDetected)
    ∧ scanSucceeds ScanExit.nothingDetected = true :=
  empty_detection_exits_cleanly envAllClean true true true true (by decide)

/-- If pre-commit fails on every permitted attempt while fixing and staging
succeed, the loop executes every attempt and exits exhausted. -/
theorem preCommitLoop_all_fail (env : CleanupEnv) :
    ∀ (r a : Nat),
      (∀ i, a ≤ i → i < a + r →
        env.preCommitPasses i = false ∧ env.fixSucceeds i = true
          ∧ env.stageSucceeds i = true) →
      preCommitLoop env a r = (List.range' a r, CleanupResult.exhausted) := by
  intro r
  induction r with
  | zero => intro a _; rfl
  | succ n ih =>
    intro a h
    obtain ⟨hp, hf, hs⟩ := h a (Nat.le_refl a) (by omega)
    have hrec := ih (a + 1) (fun i h1 h2 => h i (by omega) (by omega))
    simp [preCommitLoop, hp, hf, hs, hrec, List.range'_succ]

/-- The loop executes at most as many attempts as it is permitted. -/
theorem preCommitLoop_length (env : CleanupEnv) :
    ∀ (r a : Nat), (preCommitLoop env a r).1.length ≤ r := by
  intro r
  induction r with
  | zero => intro a; simp [preCommitLoop]
  | succ n ih =>
    intro a
    have hrec := ih (a + 1)
    simp only [preCommitLoop]
    split_ifs <;> simp <;> omega

/-- An exhausted loop has executed exactly its permitted attempts. -/
theorem preCommitLoop_exhausted_trace (env : CleanupEnv) :
    ∀ (r a : Nat), (preCommitLoop env a r).2 = CleanupResult.exhausted →
      (preCommitLoop env a r).1 = List.range' a r := by
  intro r
  induction r with
  | zero => intro a _; rfl
  | succ n ih =>
    intro a h
    cases hp : env.preCommitPasses a <;> cases hf : env.fixSucceeds a <;>
      cases hs : env.stageSucceeds a <;>
      simp [preCommitLoop, hp, hf, hs] at h ⊢ <;>
      simp [ih (a + 1) h, List.range'_succ]

/-- C4: the pre-commit cleanup loop retries pre-commit at most 5 times; if
pre-commit fails on all 5 attempts (with the fix and re-staging steps
succeeding), the loop runs attempts 1 through 5 — never more, never fewer —
and returns the terminal "failed after 5 attempts" error, and any exhausted
run has executed exactly attempts 1 through 5. -/
theorem preCommitCleanup_bounded_retry :
    ∀ env : CleanupEnv,
      ((∀ i, 1 ≤ i → i ≤ 5 →
          env.preCommitPasses i = false ∧ env.fixSucceeds i = true
            ∧ env.stageSucceeds i = true) →
        runPreCommitCleanup env = ([1, 2, 3, 4, 5], CleanupResult.exhausted))
      ∧ (runPreCommitCleanup env).1.length ≤ 5
      ∧ ((runPreCommitCleanup env).2 = CleanupResult.exhausted →
          (runPreCommitCleanup env).1 = [1, 2, 3, 4, 5]) := by
  intro env
  refine ⟨?_, preCommitLoop_length env 5 1, ?_⟩
  · intro h
    have := preCommitLoop_all_fail env 5 1 (fun i h1 h2 => h i h1 (by omega))
    simpa [runPreCommitCleanup] using this
  · intro h
    have := preCommitLoop_exhausted_trace env 5 1 h
    simpa [runPreCommitCleanup] using this

/-- C4 witness: pre-commit failing on every attempt with successful fixes and
staging. -/
theorem preCommitCleanup_bounded_retry_witness :
    runPreCommitCleanup cleanupAllFailEnv = ([1, 2, 3, 4, 5], CleanupResult.exhausted) :=
  (preCommitCleanup_bounded_retry cleanupAllFailEnv).1
    (fun _ _ _ => ⟨rfl, rfl, rfl⟩)

/-- C7: inside a git repository, when the trimmed current branch is main or
master, `pr create` returns the precondition error at once, and the only
external processes it has spawned are the two git precondition queries — in
particular neither gh nor the AI tool is ever contacted. -/
theorem pr_create_rejects_main_branch :
    ∀ (env : PrEnv) (bout : String),
      env.isGitRepo = true → env.branchOut = some bout →
      (strTrim bout = "main" ∨ strTrim bout = "master") →
      prCreate env
        = ([PrStep.gitRevParse, PrStep.gitBranchShowCurrent],
           Except.error ("cannot create PR from " ++ strTrim bout ++ " branch")) := by
  intro env bout hrepo hbranch hmain
  simp only [prCreate, hrepo, hbranch]
  rcases hmain with h | h <;> simp [h]

/-- C7 witness: `pr create` on the main branch. -/
theorem pr_create_rejects_main_branch_witness :
    prCreate prEnvOnMain
      = ([PrStep.gitRevParse, PrStep.gitBranchShowCurrent],
         Except.error "cannot create PR from main branch") :=
  pr_create_rejects_main_branch prEnvOnMain "main" rfl rfl (Or.inl rfl)

/-- C6 (amended): both AI-backed generators only trim surrounding whitespace
off the AI stdout; the commit-message generator rejects an empty trimmed
response as an error, while the PR-description generator accepts it — the
trimmed response, empty or not, is returned as a successful description. -/
theorem ai_response_processing :
    ∀ (raw s d a b c : String) (env : PrEnv),
      (strTrim raw ≠ "" →
        generateCommitMessage (some s) (some d) (some raw)
          = Except.ok (strTrim raw))
      ∧ (strTrim raw = "" →
        generateCommitMessage (some s) (some d) (some raw)
          = Except.error "Claude generated empty commit message")
      ∧ (env.diffOut = some a → env.logOut = some b → env.statOut = some c →
         env.claudeOut = some raw →
         (generatePRDescription env).2 = Except.ok (strTrim raw)) := by
  intro raw s d a b c env
  refine ⟨?_, ?_, ?_⟩
  · intro h
    simp [generateCommitMessage, h]
  · intro h
    simp [generateCommitMessage, h]
  · intro h1 h2 h3 h4
    simp [generatePRDescription, h1, h2, h3, h4]

/-- C6 (counterexample to the claim as stated): a whitespace-only AI response
to the PR-description generator is not rejected — the generator returns the
empty description successfully and the whole `pr create` command succeeds. -/
theorem pr_empty_ai_response_not_rejected :
    (generatePRDescription prEnvBlankClaude).2 = Except.ok ""
    ∧ (prCreate prEnvBlankClaude).2 = Except.ok "" := by
  exact ⟨rfl, rfl⟩

/-- C6 witness: a padded non-empty AI response is trimmed by both
generators. -/
theorem ai_response_processing_witness :
    generateCommitMessage (some "") (some "") (some " fix: x ")
      = Except.ok "fix: x"
    ∧ (generatePRDescription prEnvPadded).2 = Except.ok "fix: x" := by
  have h := ai_response_processing " fix: x " "" "" "" "" "" prEnvPadded
  exact ⟨h.1 (by decide), h.2.2 rfl rfl rfl rfl⟩

/-- C9: the detected language list is duplicate-free, is a subsequence of the
fixed order go, typescript-or-javascript, python, java, rust, never contains
both "javascript" and "typescript", and when the JavaScript ecosystem is
detected it reports "typescript" exactly when a .ts or .tsx file exists and
"javascript" otherwise. -/
theorem detectLanguages_ordered_and_exclusive :
    ∀ env : DetectEnv,
      (detectLanguages env).Nodup
      ∧ (detectLanguages env).Sublist
          ["go", if env.tsFiles then "typescript" else "javascript",
           "python", "java", "rust"]
      ∧ ¬("javascript" ∈ detectLanguages env ∧ "typescript" ∈ detectLanguages env)
      ∧ ((env.packageJson || env.jsFamilyFiles) = true →
          (("typescript" ∈ detectLanguages env) ↔ env.tsFiles = true)
          ∧ (("javascript" ∈ detectLanguages env) ↔ env.tsFiles = false)) := by
  intro env
  obtain ⟨gm, gf, pj, jf, tf, rq, pt, sp, pf, px, bg, jv, ct, rs⟩ := env
  simp only [detectLanguages]
  cases h1 : (gm || gf) <;> cases h2 : (pj || jf) <;> cases tf <;>
    cases h4 : (rq || pt || sp || pf) <;> cases h5 : (px || bg || jv) <;>
    cases h6 : (ct || rs) <;> simp_all <;> decide

/-- C9 witness: a typescript project with package.json and .tsx files. -/
theorem detectLanguages_witness :
    (("typescript" ∈ detectLanguages ⟨false, false, true, true, true, false,
        false, false, false, false, false, false, false, false⟩) ↔ True)
    ∧ (("javascript" ∈ detectLanguages ⟨false, false, true, true, true, false,
        false, false, false, false, false, false, false, false⟩) ↔ False) := by
  have h := (detectLanguages_ordered_and_exclusive ⟨false, false, true, true,
    true, false, false, false, false, false, false, false, false, false⟩).2.2.2 rfl
  exact ⟨by simpa using h.1, by simpa using h.2⟩

/-- If no element of the prefix matches, the first match of the appended list
is the head of its tail part when that head matches. -/
theorem find?_append_first {α : Type} (p : α → Bool) :
    ∀ (pre : List α) (x : α) (post : List α),
      (∀ l ∈ pre, p l = false) → p x = true →
      (pre ++ x :: post).find? p = some x := by
  intro pre
  induction pre with
  | nil =>
    intro x post _ hp
    simpa using List.find?_cons_of_pos post hp
  | cons a rest ih =>
    intro x post h hp
    have ha : ¬p a = true := by simp [h a (by simp)]
    simpa using Eq.trans (List.find?_cons_of_neg (rest ++ x :: post) ha)
      (ih x post (fun l hl => h l (by simp [hl])) hp)

/-- C10: the PR-URL extraction never returns an error; when no line of the
description contains both "github.com" and "/pull/" it returns the whole
description unchanged; and when some line matches, it returns the first such
line, trimmed. -/
theorem createPR_first_matching_line :
    ∀ d : String,
      (∀ msg : String, createPR d ≠ Except.error msg)
      ∧ ((∀ l ∈ splitLines d, prLineMatch l = false) →
          createPR d = Except.ok d)
      ∧ (∀ (pre : List String) (line : String) (post : List String),
          splitLines d = pre ++ line :: post → prLineMatch line = true →
          (∀ l ∈ pre, prLineMatch l = false) →
          createPR d = Except.ok (strTrim line)) := by
  intro d
  refine ⟨?_, ?_, ?_⟩
  · intro msg
    unfold createPR
    cases h : (splitLines d).find? prLineMatch <;> simp
  · intro h
    have hn : (splitLines d).find? prLineMatch = none :=
      List.find?_eq_none.mpr (fun x hx => by simp [h x hx])
    simp [createPR, hn]
  · intro pre line post hsplit hline hpre
    have hs : (splitLines d).find? prLineMatch = some line := by
      rw [hsplit]
      exact find?_append_first prLineMatch pre line post hpre hline
    simp [createPR, hs]

/-- C10 witness: a two-line description whose second line carries the PR
URL. -/
theorem createPR_first_matching_line_witness :
    createPR "a\ngithub.com/r/pull/1 " = Except.ok "github.com/r/pull/1" := by
  have h := (createPR_first_matching_line "a\ngithub.com/r/pull/1 ").2.2
    ["a"] "github.com/r/pull/1 " [] (by decide) (by decide) (by decide)
  simpa using h

end Bruh
